import Mathlib

/-!
Shallow embedding of the reconstruction pipeline of `arc-image-to-model`
(files `src/app/utils/geometry.py`, `src/app/utils/stitching.py`,
`src/app/utils/model_export.py`), together with theorems settling the
specification claims about it.

Conventions of the embedding:
* Python floats are modelled as real numbers (`ℝ`); the numeric claims of the
  specification are themselves stated over exact arithmetic.
* Pixel coordinates and image sizes are integers (`ℤ`/`ℕ`), as in the source.
* A numpy 2-d depth array is modelled by its shape together with a total
  lookup function; clamped indices are always in range when the shape is
  positive, exactly as in the source.
* Python dictionaries with a fixed key set are modelled as structures.
* The nondeterministic wall id (`np.random.randint`) is made explicit as a
  `rid` parameter.
* Walls are treated as values: in-place mutation of a wall's vertex array in
  the source becomes replacement of the corresponding list entry, and the
  mutable `self.walls` field of `RoomStitcher` is threaded explicitly as a
  state argument.
* Fallible steps return `Except String`: in particular, in
  `RoomStitcher.stitch_walls` the source reads `room_mesh.vertices` and
  `room_mesh.faces` as *attributes* of `room_mesh`, but
  `GeometryProcessor.create_room_mesh` returns a plain Python dict
  (`{"vertices": ..., "faces": ...}`), so that access raises `AttributeError`
  whenever it is reached; the embedding models it as `Except.error`.
-/

open scoped Classical

noncomputable section

namespace Arc

/-- Camera-space 3-vector, as used for wall vertices and normals. -/
abbrev Vec3 := ℝ × ℝ × ℝ

/-- Componentwise vector addition (numpy `+` on 3-vectors). -/
def vadd (a b : Vec3) : Vec3 := (a.1 + b.1, a.2.1 + b.2.1, a.2.2 + b.2.2)

/-- Componentwise vector subtraction (numpy `-` on 3-vectors). -/
def vsub (a b : Vec3) : Vec3 := (a.1 - b.1, a.2.1 - b.2.1, a.2.2 - b.2.2)

/-- Division of a 3-vector by a scalar (numpy `/`). -/
def vdiv (a : Vec3) (c : ℝ) : Vec3 := (a.1 / c, a.2.1 / c, a.2.2 / c)

/-- Dot product of 3-vectors (`np.dot`). -/
def dot3 (a b : Vec3) : ℝ := a.1 * b.1 + a.2.1 * b.2.1 + a.2.2 * b.2.2

/-- Cross product of 3-vectors (`np.cross`). -/
def cross3 (a b : Vec3) : Vec3 :=
  (a.2.1 * b.2.2 - a.2.2 * b.2.1,
   a.2.2 * b.1 - a.1 * b.2.2,
   a.1 * b.2.1 - a.2.1 * b.1)

/-- Euclidean norm of a 3-vector (`np.linalg.norm`). -/
def norm3 (a : Vec3) : ℝ := Real.sqrt (a.1 ^ 2 + a.2.1 ^ 2 + a.2.2 ^ 2)

/-- Euclidean distance between two 3-vectors (`np.linalg.norm(v1 - v2)`). -/
def dist3 (a b : Vec3) : ℝ := norm3 (vsub a b)

/-- Zero vector, used only as the (never hit) default of in-range lookups. -/
def zero3 : Vec3 := (0, 0, 0)

/-- The `wall_bounds` dict `x_min/y_min/x_max/y_max` of
`GeometryProcessor.create_wall_mesh` (pixel coordinates). -/
structure WallBound where
  x_min : ℤ
  y_min : ℤ
  x_max : ℤ
  y_max : ℤ

/-- The `camera_params` dict of `GeometryProcessor.create_wall_mesh`. -/
structure CameraParams where
  fx : ℝ
  fy : ℝ
  cx : ℝ
  cy : ℝ
  width : ℤ
  height : ℤ

/-- Default camera parameters used when `camera_params is None`
(geometry.py lines 37-42). -/
def default_camera : CameraParams :=
  { fx := 500, fy := 500, cx := 320, cy := 240, width := 640, height := 480 }

/-- A numpy 2-d depth array, modelled by its shape `(h, w)` and a total
lookup function; the source only reads it at indices clamped into
`[0, h-1] × [0, w-1]`. -/
structure DepthMap where
  h : ℕ
  w : ℕ
  at' : ℕ → ℕ → ℝ

/-- Index clamping `max(0, min(v, n-1))` used for depth sampling
(geometry.py lines 53-56). -/
def clampIdx (v : ℤ) (n : ℕ) : ℤ := max 0 (min v ((n : ℤ) - 1))

/-- The `Wall` dataclass of geometry.py. The `elements` entries are opaque
to the reconstruction core and are modelled as strings. -/
structure Wall where
  id : String
  vertices : List Vec3
  normal : Vec3
  bounds : WallBound
  elements : List String
  confidence : ℝ

/-- The `RoomModel` dataclass of geometry.py. -/
structure Bounds where
  width : ℝ
  height : ℝ
  depth : ℝ
  area : ℝ
  volume : ℝ

/-- The `RoomModel` dataclass of geometry.py; faces are index triples. -/
structure RoomModel where
  walls : List Wall
  vertices : List Vec3
  faces : List (ℕ × ℕ × ℕ)
  bounds : Bounds

/-- The `{"vertices": ..., "faces": ...}` dict returned by
`GeometryProcessor.create_room_mesh` and `ModelExporter._room_to_dict`. -/
structure MeshDict where
  vertices : List Vec3
  faces : List (ℕ × ℕ × ℕ)

/-- The wall-normal computation of `GeometryProcessor.create_wall_mesh`
(geometry.py lines 91-101): cross product of the top edge
`vertices[1] - vertices[0]` and the left edge `vertices[3] - vertices[0]`,
normalized, with fallback `(0, 0, 1)` for fewer than 3 vertices or a
zero-magnitude cross product. The in-range `getD` defaults are never hit. -/
def normal_from_vertices (vertices : List Vec3) : Vec3 :=
  if 3 ≤ vertices.length then
    let v1 := vsub (vertices.getD 1 zero3) (vertices.getD 0 zero3)
    let v2 := vsub (vertices.getD 3 zero3) (vertices.getD 0 zero3)
    let n := cross3 v1 v2
    let norm_length := norm3 n
    if 0 < norm_length then vdiv n norm_length else (0, 0, 1)
  else (0, 0, 1)

/-- `GeometryProcessor.create_wall_mesh` (geometry.py lines 32-110).
The random id draw is the explicit parameter `rid`. -/
def create_wall_mesh (wall_bounds : WallBound) (depth_map : Option DepthMap)
    (camera_params : Option CameraParams) (rid : ℕ) : Wall :=
  let cam := camera_params.getD default_camera
  -- Extract wall bounds safely (lines 45-48)
  let x_min : ℤ := max 0 wall_bounds.x_min
  let y_min : ℤ := max 0 wall_bounds.y_min
  let x_max : ℤ := min (cam.width - 1) wall_bounds.x_max
  let y_max : ℤ := min (cam.height - 1) wall_bounds.y_max
  -- Sample depth at wall corners with bounds checking (lines 51-63);
  -- `depth_map.size > 0` for a 2-d array means both dimensions are positive.
  let depths : ℝ × ℝ × ℝ × ℝ :=
    match depth_map with
    | some dm =>
        if 0 < dm.h * dm.w then
          (dm.at' (clampIdx y_min dm.h).toNat (clampIdx x_min dm.w).toNat * 3.0 + 1.0,
           dm.at' (clampIdx y_min dm.h).toNat (clampIdx x_max dm.w).toNat * 3.0 + 1.0,
           dm.at' (clampIdx y_max dm.h).toNat (clampIdx x_min dm.w).toNat * 3.0 + 1.0,
           dm.at' (clampIdx y_max dm.h).toNat (clampIdx x_max dm.w).toNat * 3.0 + 1.0)
        else (2.0, 2.0, 2.0, 2.0)
    | none => (2.0, 2.0, 2.0, 2.0)
  let depth_tl := depths.1
  let depth_tr := depths.2.1
  let depth_bl := depths.2.2.1
  let depth_br := depths.2.2.2
  -- Back-projection of the four corners (lines 66-88)
  let v_tl : Vec3 := (((x_min : ℝ) - cam.cx) * depth_tl / cam.fx,
                      -(((y_min : ℝ)) - cam.cy) * depth_tl / cam.fy, -depth_tl)
  let v_tr : Vec3 := (((x_max : ℝ) - cam.cx) * depth_tr / cam.fx,
                      -(((y_min : ℝ)) - cam.cy) * depth_tr / cam.fy, -depth_tr)
  let v_br : Vec3 := (((x_max : ℝ) - cam.cx) * depth_br / cam.fx,
                      -(((y_max : ℝ)) - cam.cy) * depth_br / cam.fy, -depth_br)
  let v_bl : Vec3 := (((x_min : ℝ) - cam.cx) * depth_bl / cam.fx,
                      -(((y_max : ℝ)) - cam.cy) * depth_bl / cam.fy, -depth_bl)
  let vertices : List Vec3 := [v_tl, v_tr, v_br, v_bl]
  -- Wall normal from the cross product of the top and left edges (lines 91-101)
  let normal : Vec3 := normal_from_vertices vertices
  { id := "wall_" ++ toString rid,
    vertices := vertices,
    normal := normal,
    bounds := wall_bounds,
    elements := [],
    confidence := 0.8 }

/-- The default wall returned by `create_wall_from_segmentation` when no wall
was detected or the bounds are null (geometry.py lines 177-185). -/
def default_wall : Wall :=
  { id := "default_wall",
    vertices := [(-1, 1, -2), (1, 1, -2), (1, -1, -2), (-1, -1, -2)],
    normal := (0, 0, 1),
    bounds := { x_min := 0, y_min := 0, x_max := 100, y_max := 100 },
    elements := [],
    confidence := 0.5 }

/-- The segmentation result dict, restricted to the keys read by
`create_wall_from_segmentation` plus the reported `confidence`. -/
structure SegResult where
  wall_detected : Bool
  confidence : ℝ
  bounds : Option WallBound

/-- `create_wall_from_segmentation` (geometry.py lines 172-187): the default
wall when no wall was detected or bounds are null, otherwise
`create_wall_mesh` with default camera parameters. -/
def create_wall_from_segmentation (seg : SegResult) (depth_map : Option DepthMap)
    (rid : ℕ) : Wall :=
  match seg.wall_detected, seg.bounds with
  | true, some b => create_wall_mesh b depth_map none rid
  | true, none => default_wall
  | false, _ => default_wall

/-- The aggregation loop shared verbatim by `GeometryProcessor.create_room_mesh`
(geometry.py lines 117-132) and `ModelExporter._room_to_dict`
(model_export.py lines 59-74): walls with at least 4 vertices contribute
their vertices and the two fixed triangles `(o, o+1, o+2)`, `(o, o+2, o+3)`
at the running offset, which advances by 4; other walls are skipped.
Result: (all_vertices, all_faces, vertex_offset). -/
def aggregate_walls (walls : List Wall) : List Vec3 × List (ℕ × ℕ × ℕ) × ℕ :=
  walls.foldl
    (fun acc wall =>
      if 4 ≤ wall.vertices.length then
        (acc.1 ++ wall.vertices,
         acc.2.1 ++ [(acc.2.2, acc.2.2 + 1, acc.2.2 + 2),
                     (acc.2.2, acc.2.2 + 2, acc.2.2 + 3)],
         acc.2.2 + 4)
      else acc)
    ([], [], 0)

/-- The hard-coded fallback box of `create_room_mesh`
(geometry.py lines 136-147). -/
def fallback_box : MeshDict :=
  { vertices := [(-1, -1, -1), (1, -1, -1), (1, 1, -1), (-1, 1, -1),
                 (-1, -1, 1), (1, -1, 1), (1, 1, 1), (-1, 1, 1)],
    faces := [(0, 1, 2), (0, 2, 3), (4, 7, 6), (4, 6, 5),
              (0, 4, 5), (0, 5, 1), (2, 6, 7), (2, 7, 3),
              (0, 3, 7), (0, 7, 4), (1, 5, 6), (1, 6, 2)] }

/-- `GeometryProcessor.create_room_mesh` (geometry.py lines 112-153).
It returns a plain Python dict, modelled by `MeshDict`. -/
def create_room_mesh (walls : List Wall) : MeshDict :=
  if walls.isEmpty then { vertices := [], faces := [] }
  else
    let acc := aggregate_walls walls
    if acc.1.isEmpty then fallback_box
    else { vertices := acc.1, faces := acc.2.1 }

/-- The result dict of `RoomStitcher._check_wall_connection`
(stitching.py lines 64-91). -/
structure ConnCheck where
  connected : Bool
  ctype : String
  angle : ℝ

/-- The connection angle in degrees:
`np.degrees(np.arccos(np.clip(np.dot(n1, n2), -1.0, 1.0)))`
(stitching.py lines 67-69). -/
def angleDeg (n1 n2 : Vec3) : ℝ :=
  Real.arccos (max (-1) (min (dot3 n1 n2) 1)) * (180 / Real.pi)

/-- `RoomStitcher._check_wall_connection` (stitching.py lines 64-91). -/
def check_wall_connection (wall1 wall2 : Wall) : ConnCheck :=
  let angle_degrees := angleDeg wall1.normal wall2.normal
  if 80 ≤ angle_degrees ∧ angle_degrees ≤ 100 then
    { connected := true, ctype := "corner", angle := angle_degrees }
  else if angle_degrees < 10 ∨ 170 < angle_degrees then
    { connected := true, ctype := "parallel", angle := angle_degrees }
  else
    { connected := false, ctype := "none", angle := angle_degrees }

/-- A connection record as appended by `RoomStitcher._find_wall_connections`
(stitching.py lines 55-60). -/
structure Conn where
  wall1_idx : ℕ
  wall2_idx : ℕ
  connection_type : String
  angle : ℝ

/-- The index pairs `(i, j)` with `i < j < n` visited by the nested loops
`for i, wall1 in enumerate(walls): for j, wall2 in enumerate(walls[i+1:], i+1)`. -/
def upperPairs (n : ℕ) : List (ℕ × ℕ) :=
  (List.range n).flatMap (fun i => ((List.range n).drop (i + 1)).map (fun j => (i, j)))

/-- `RoomStitcher._find_wall_connections` (stitching.py lines 47-62); the
indices produced by `upperPairs` are always in range, so the `getD` defaults
are never hit. -/
def find_wall_connections (walls : List Wall) : List Conn :=
  (upperPairs walls.length).filterMap (fun ij =>
    let c := check_wall_connection (walls.getD ij.1 default_wall) (walls.getD ij.2 default_wall)
    if c.connected then
      some { wall1_idx := ij.1, wall2_idx := ij.2,
             connection_type := c.ctype, angle := c.angle }
    else none)

/-- The `corner_threshold` field of `RoomStitcher` (stitching.py line 14). -/
def corner_threshold : ℝ := 0.1

/-- The index pairs `(i, j)` visited in row-major order by the nested vertex
loops of `RoomStitcher._align_walls_at_corners` (stitching.py lines 110-111). -/
def pairIndices (n m : ℕ) : List (ℕ × ℕ) :=
  (List.range n).flatMap (fun i => (List.range m).map (fun j => (i, j)))

/-- One update of the running minimum `(min_dist, closest_v1, closest_v2)` of
`_align_walls_at_corners` (stitching.py lines 112-115); `none` plays the role
of the initial `min_dist = inf` state, which every first comparison beats. -/
def closerStep (vs1 vs2 : List Vec3) (acc : Option (ℝ × ℕ × ℕ)) (ij : ℕ × ℕ) :
    Option (ℝ × ℕ × ℕ) :=
  let d := dist3 (vs1.getD ij.1 zero3) (vs2.getD ij.2 zero3)
  match acc with
  | none => some (d, ij.1, ij.2)
  | some r => if d < r.1 then some (d, ij.1, ij.2) else some r

/-- The closest-vertex search of `_align_walls_at_corners`
(stitching.py lines 106-115). -/
def closest_vertices (vs1 vs2 : List Vec3) : Option (ℝ × ℕ × ℕ) :=
  (pairIndices vs1.length vs2.length).foldl (closerStep vs1 vs2) none

/-- The body of the connection loop of `RoomStitcher._align_walls_at_corners`
(stitching.py lines 97-122), acting on the wall list as a value: the in-place
vertex mutations of the source become `List.set` updates. When a vertex list
is empty the source keeps `min_dist = inf` and skips the merge, matching the
`none` branch here. -/
def align_connection (walls : List Wall) (connection : Conn) : List Wall :=
  if connection.connection_type = "corner" then
    let wall1 := walls.getD connection.wall1_idx default_wall
    let wall2 := walls.getD connection.wall2_idx default_wall
    match closest_vertices wall1.vertices wall2.vertices with
    | none => walls
    | some r =>
        if r.1 < corner_threshold then
          let avg_pos := vdiv (vadd (wall1.vertices.getD r.2.1 zero3)
                                    (wall2.vertices.getD r.2.2 zero3)) 2
          (walls.set connection.wall1_idx
              { wall1 with vertices := wall1.vertices.set r.2.1 avg_pos }).set
            connection.wall2_idx
            { wall2 with vertices := wall2.vertices.set r.2.2 avg_pos }
        else walls
  else walls

/-- `RoomStitcher._align_walls_at_corners` (stitching.py lines 93-124). -/
def align_walls_at_corners (walls : List Wall) (connections : List Conn) : List Wall :=
  connections.foldl align_connection walls

/-- All wall vertices collected by `RoomStitcher._calculate_room_bounds`
(stitching.py lines 132-134). -/
def all_wall_vertices (walls : List Wall) : List Vec3 :=
  walls.flatMap (fun wall => wall.vertices)

/-- Minimum of a list of reals, as the left fold numpy's `np.min` performs;
the `[]` default is never hit by the source (it checks emptiness first). -/
def listMin (l : List ℝ) : ℝ :=
  match l with
  | [] => 0
  | x :: xs => xs.foldl min x

/-- Maximum of a list of reals, as the left fold numpy's `np.max` performs. -/
def listMax (l : List ℝ) : ℝ :=
  match l with
  | [] => 0
  | x :: xs => xs.foldl max x

/-- `RoomStitcher._calculate_room_bounds` (stitching.py lines 126-155). -/
def calculate_room_bounds (walls : List Wall) : Bounds :=
  if walls.isEmpty then { width := 0, height := 0, depth := 0, area := 0, volume := 0 }
  else
    let all_vertices := all_wall_vertices walls
    if all_vertices.isEmpty then
      { width := 0, height := 0, depth := 0, area := 0, volume := 0 }
    else
      let width := listMax (all_vertices.map (fun v => v.1)) -
        listMin (all_vertices.map (fun v => v.1))
      let height := listMax (all_vertices.map (fun v => v.2.1)) -
        listMin (all_vertices.map (fun v => v.2.1))
      let depth := listMax (all_vertices.map (fun v => v.2.2)) -
        listMin (all_vertices.map (fun v => v.2.2))
      { width := width, height := height, depth := depth,
        area := width * depth, volume := width * height * depth }

/-- `RoomStitcher._empty_room` (stitching.py lines 157-164). -/
def empty_room : RoomModel :=
  { walls := [], vertices := [], faces := [],
    bounds := { width := 0, height := 0, depth := 0, area := 0, volume := 0 } }

/-- `RoomStitcher.add_wall` (stitching.py lines 16-18), on the explicit
`self.walls` state: an unconditional append. -/
def add_wall (walls : List Wall) (wall : Wall) : List Wall := walls ++ [wall]

/-- The message of the `AttributeError` raised at stitching.py line 42. -/
def attr_error : String := "AttributeError: dict object has no attribute vertices"

/-- `RoomStitcher.stitch_walls` (stitching.py lines 20-45) with the mutable
`self.walls` state threaded explicitly: the pair is (state of `self.walls`
after the call, result). For a non-empty `wall_list` the source sets
`self.walls = wall_list`, classifies connections, aligns corners (mutating
the shared wall objects in place, so the stored state reflects the aligned
walls), builds the room mesh dict and the bounds, and then evaluates
`room_mesh.vertices` — an attribute access on the plain dict returned by
`create_room_mesh`, which raises `AttributeError` before any `RoomModel`
is constructed. -/
def stitch_walls_run (stored wall_list : List Wall) :
    List Wall × Except String RoomModel :=
  if wall_list.isEmpty then (stored, Except.ok empty_room)
  else
    let connections := find_wall_connections wall_list
    let aligned_walls := align_walls_at_corners wall_list connections
    let _room_mesh := create_room_mesh aligned_walls
    let _bounds := calculate_room_bounds aligned_walls
    (aligned_walls, Except.error attr_error)

/-- The box of `ModelExporter._create_simple_room`
(model_export.py lines 89-111). -/
def create_simple_room : MeshDict :=
  { vertices := [(-2, -1.25, -2), (2, -1.25, -2), (2, -1.25, 2), (-2, -1.25, 2),
                 (-2, 1.25, -2), (2, 1.25, -2), (2, 1.25, 2), (-2, 1.25, 2)],
    faces := [(0, 1, 2), (0, 2, 3), (4, 7, 6), (4, 6, 5),
              (0, 4, 5), (0, 5, 1), (1, 5, 6), (1, 6, 2),
              (2, 6, 7), (2, 7, 3), (3, 7, 4), (3, 4, 0)] }

/-- `ModelExporter._room_to_dict` (model_export.py lines 47-87); the pure
steps here cannot raise, so the `except` wrapper is not reachable. -/
def room_to_dict (m : RoomModel) : MeshDict :=
  if 0 < m.vertices.length ∧ 0 < m.faces.length then
    { vertices := m.vertices, faces := m.faces }
  else if m.walls.isEmpty = false then
    let acc := aggregate_walls m.walls
    if acc.1.isEmpty = false then { vertices := acc.1, faces := acc.2.1 }
    else create_simple_room
  else create_simple_room

/-! Concrete inputs used by counterexamples and witnesses. -/

/-- A wall with segmentation confidence 0.29, below the spec's acceptance
threshold of 0.3. -/
def low_wall : Wall :=
  { id := "low",
    vertices := [(-1, 1, -2), (1, 1, -2), (1, -1, -2), (-1, -1, -2)],
    normal := (0, 0, 1),
    bounds := { x_min := 0, y_min := 0, x_max := 100, y_max := 100 },
    elements := [],
    confidence := 0.29 }

/-- A segmentation result that reports a wall with confidence 0.2 and
concrete bounds. -/
def seg_low : SegResult :=
  { wall_detected := true, confidence := 0.2,
    bounds := some { x_min := 10, y_min := 10, x_max := 50, y_max := 50 } }

/-- A room model with no walls and empty vertex and face arrays. -/
def empty_model : RoomModel :=
  { walls := [], vertices := [], faces := [],
    bounds := { width := 0, height := 0, depth := 0, area := 0, volume := 0 } }

/-! Claim theorems. -/

/-- C1: the claim says `stitch_walls` returns a RoomModel and never raises on
a non-empty wall list. In the code, `create_room_mesh` returns a plain dict
while `stitch_walls` reads `room_mesh.vertices` as an attribute, so every
call with a non-empty wall list raises `AttributeError` instead of returning
a RoomModel; this theorem evaluates the embedded code on every non-empty
input and obtains the error. -/
theorem c1_stitch_always_raises_on_nonempty (stored : List Wall) (w : Wall)
    (ws : List Wall) :
    (stitch_walls_run stored (w :: ws)).2 = Except.error attr_error := rfl

/-- C2 counterexample: adding a wall of confidence 0.29 (not above the 0.3
threshold) increases the stored wall count from 0 to 1, contradicting the
claim that such a wall is dropped. -/
theorem c2_counterexample :
    low_wall.confidence = 0.29 ∧ ¬ (0.3 < low_wall.confidence) ∧
    (add_wall [] low_wall).length = 1 := by
  refine ⟨rfl, ?_, rfl⟩
  show ¬ ((0.3 : ℝ) < 0.29)
  norm_num

/-- C2 amended: `add_wall` appends unconditionally — for every stored
collection and every wall, the count increases by one and the wall (whatever
its confidence) is stored; no confidence threshold is applied. -/
theorem c2_add_wall_appends_unconditionally (walls : List Wall) (wall : Wall) :
    (add_wall walls wall).length = walls.length + 1 ∧ wall ∈ add_wall walls wall := by
  constructor
  · simp [add_wall]
  · simp [add_wall]

/-- C4 counterexample: for a segmentation result that reports a wall with
confidence 0.2 and valid bounds, the built wall carries confidence 0.8, not
the reported 0.2 — confidence is not inherited from segmentation. -/
theorem c4_counterexample :
    (create_wall_from_segmentation seg_low none 0).confidence = 0.8 ∧
    seg_low.confidence = 0.2 ∧ (0.8 : ℝ) ≠ 0.2 := by
  refine ⟨rfl, rfl, by norm_num⟩

/-- C4 amended: the wall built from a segmentation result carries the fixed
confidence 0.8 whenever a wall with non-null bounds was reported (whatever
confidence segmentation reported), and the neutral default 0.5 otherwise. -/
theorem c4_confidence_is_fixed (seg : SegResult) (depth_map : Option DepthMap)
    (rid : ℕ) :
    (create_wall_from_segmentation seg depth_map rid).confidence =
      if seg.wall_detected = true ∧ seg.bounds.isSome = true then 0.8 else 0.5 := by
  rcases seg with ⟨d, c, b⟩
  cases d <;> cases b <;>
    simp [create_wall_from_segmentation, create_wall_mesh, default_wall]

/-- The property claimed for export of an empty room model: the mesh dict is
the canonical fallback box with exactly 8 vertices and 12 triangles. -/
def C9Spec (m : RoomModel) : Prop :=
  room_to_dict m = create_simple_room ∧
  (room_to_dict m).vertices.length = 8 ∧
  (room_to_dict m).faces.length = 12

/-- C9: exporting a room model with no walls and an empty vertex list
substitutes the canonical fallback box of exactly 8 vertices and
12 triangular faces, so the exported mesh is never empty. -/
theorem c9_empty_model_fallback (m : RoomModel) (hw : m.walls = [])
    (hv : m.vertices = []) : C9Spec m := by
  have h1 : room_to_dict m = create_simple_room := by
    simp [room_to_dict, hw, hv]
  exact ⟨h1, by rw [h1]; rfl, by rw [h1]; rfl⟩

/-- C9 witness: the fallback property evaluated at the concrete empty model. -/
theorem c9_witness : C9Spec empty_model :=
  c9_empty_model_fallback empty_model rfl rfl

/-- C10 counterexample: a stitcher with an empty stored wall collection that
stitches a one-wall list ends up with that wall stored — `stitch_walls` is
not a pure read of the collection (the source assigns
`self.walls = wall_list`). -/
theorem c10_counterexample :
    (stitch_walls_run [] [default_wall]).1 = [default_wall] ∧
    ([default_wall] : List Wall) ≠ [] := by
  exact ⟨rfl, by simp⟩

/-- C10 amended: `stitch_walls` overwrites the stored wall collection with
the input list as mutated by corner alignment (the source assigns
`self.walls = wall_list` and then nudges the shared wall objects in place);
only the empty-input early return leaves the stored collection unchanged. -/
theorem c10_stitch_replaces_state :
    (∀ stored : List Wall, (stitch_walls_run stored []).1 = stored) ∧
    (∀ (stored : List Wall) (w : Wall) (ws : List Wall),
      (stitch_walls_run stored (w :: ws)).1 =
        align_walls_at_corners (w :: ws) (find_wall_connections (w :: ws))) := by
  exact ⟨fun stored => rfl, fun stored w ws => rfl⟩

/-- Dividing a 3-vector by its (positive) Euclidean norm yields a unit
vector. -/
lemma norm3_vdiv_norm3 (v : Vec3) (h : 0 < norm3 v) :
    norm3 (vdiv v (norm3 v)) = 1 := by
  have hs : 0 ≤ v.1 ^ 2 + v.2.1 ^ 2 + v.2.2 ^ 2 := by positivity
  have hL2 : norm3 v ^ 2 = v.1 ^ 2 + v.2.1 ^ 2 + v.2.2 ^ 2 := Real.sq_sqrt hs
  have hne : norm3 v ≠ 0 := ne_of_gt h
  have hsum : (v.1 / norm3 v) ^ 2 + (v.2.1 / norm3 v) ^ 2 + (v.2.2 / norm3 v) ^ 2
      = 1 := by
    field_simp
    linarith [hL2]
  show Real.sqrt ((v.1 / norm3 v) ^ 2 + (v.2.1 / norm3 v) ^ 2 +
    (v.2.2 / norm3 v) ^ 2) = 1
  rw [hsum, Real.sqrt_one]

/-- The computed wall normal is always either unit length or exactly the
fallback (0, 0, 1). -/
lemma normal_from_vertices_cases (vertices : List Vec3) :
    norm3 (normal_from_vertices vertices) = 1 ∨
    normal_from_vertices vertices = (0, 0, 1) := by
  unfold normal_from_vertices
  split
  · dsimp only
    split
    · rename_i hpos
      exact Or.inl (norm3_vdiv_norm3 _ hpos)
    · exact Or.inr rfl
  · exact Or.inr rfl

/-- C7: for every wall bound, depth map (including null) and camera
parameters, the built wall has exactly 4 vertices, and its normal is either
unit length or exactly the fallback (0,0,1) (taken when the cross product of
the quad edges has zero magnitude). -/
theorem c7_wall_invariant (wall_bounds : WallBound) (depth_map : Option DepthMap)
    (camera_params : Option CameraParams) (rid : ℕ) :
    (create_wall_mesh wall_bounds depth_map camera_params rid).vertices.length = 4 ∧
    (norm3 (create_wall_mesh wall_bounds depth_map camera_params rid).normal = 1 ∨
      (create_wall_mesh wall_bounds depth_map camera_params rid).normal = (0, 0, 1)) := by
  exact ⟨rfl, normal_from_vertices_cases _⟩

/-- The property the spec claims for a null or empty depth map: every corner
is back-projected with the constant fallback depth 2.0, i.e. the four wall
vertices are exactly the pinhole back-projections of the clamped bound
corners at depth 2, and every vertex has z-coordinate -2. -/
def C8Spec (wall_bounds : WallBound) (camera_params : Option CameraParams)
    (rid : ℕ) (depth_map : Option DepthMap) : Prop :=
  let cam := camera_params.getD default_camera
  let px0 : ℝ := ((max 0 wall_bounds.x_min : ℤ) : ℝ)
  let py0 : ℝ := ((max 0 wall_bounds.y_min : ℤ) : ℝ)
  let px1 : ℝ := ((min (cam.width - 1) wall_bounds.x_max : ℤ) : ℝ)
  let py1 : ℝ := ((min (cam.height - 1) wall_bounds.y_max : ℤ) : ℝ)
  (create_wall_mesh wall_bounds depth_map camera_params rid).vertices =
    [((px0 - cam.cx) * 2 / cam.fx, -(py0 - cam.cy) * 2 / cam.fy, -2),
     ((px1 - cam.cx) * 2 / cam.fx, -(py0 - cam.cy) * 2 / cam.fy, -2),
     ((px1 - cam.cx) * 2 / cam.fx, -(py1 - cam.cy) * 2 / cam.fy, -2),
     ((px0 - cam.cx) * 2 / cam.fx, -(py1 - cam.cy) * 2 / cam.fy, -2)] ∧
  ∀ v ∈ (create_wall_mesh wall_bounds depth_map camera_params rid).vertices,
    v.2.2 = -2

/-- C8: when the depth map is null, or present but empty, the wall builder
uses the constant fallback depth 2.0 at all four corners, so each vertex is
the pinhole back-projection of the corresponding clamped bound corner at
depth 2, with z = -2 everywhere. -/
theorem c8_fallback_depth (wall_bounds : WallBound)
    (camera_params : Option CameraParams) (rid : ℕ) (depth_map : Option DepthMap)
    (h : depth_map = none ∨ ∃ dm, depth_map = some dm ∧ dm.h * dm.w = 0) :
    C8Spec wall_bounds camera_params rid depth_map := by
  unfold C8Spec
  rcases h with rfl | ⟨dm, rfl, hdm⟩
  · refine ⟨?_, ?_⟩
    · simp [create_wall_mesh, Prod.ext_iff]
      norm_num
    · intro v hv
      simp [create_wall_mesh] at hv
      rcases hv with rfl | rfl | rfl | rfl <;> norm_num
  · have hcond : ¬ (0 < dm.h * dm.w) := by omega
    refine ⟨?_, ?_⟩
    · simp [create_wall_mesh, hcond, Prod.ext_iff]
      norm_num
    · intro v hv
      simp [create_wall_mesh, hcond] at hv
      rcases hv with rfl | rfl | rfl | rfl <;> norm_num

/-- A depth map whose first dimension is zero (an empty numpy array). -/
def dm_empty : DepthMap := { h := 0, w := 5, at' := fun _ _ => 7 }

/-- C8 witness: the fallback-depth property evaluated at a concrete bound
with a null depth map and with a concrete empty depth map. -/
theorem c8_witness :
    C8Spec { x_min := 0, y_min := 0, x_max := 639, y_max := 479 } none 0 none ∧
    C8Spec { x_min := 0, y_min := 0, x_max := 639, y_max := 479 } none 1
      (some dm_empty) :=
  ⟨c8_fallback_depth _ _ _ _ (Or.inl rfl),
   c8_fallback_depth _ _ _ _ (Or.inr ⟨dm_empty, rfl, rfl⟩)⟩

/-- A left fold of `min` never exceeds its initial accumulator. -/
lemma foldl_min_le_init (xs : List ℝ) (a : ℝ) : xs.foldl min a ≤ a := by
  induction xs generalizing a with
  | nil => simp
  | cons y ys ih => exact le_trans (ih (min a y)) (min_le_left a y)

/-- A left fold of `min` is a lower bound of the list elements. -/
lemma foldl_min_le_mem (xs : List ℝ) (a x : ℝ) (hx : x ∈ xs) :
    xs.foldl min a ≤ x := by
  induction xs generalizing a with
  | nil => cases hx
  | cons y ys ih =>
    rcases List.mem_cons.mp hx with rfl | h
    · exact le_trans (foldl_min_le_init ys (min a x)) (min_le_right a x)
    · exact ih (min a y) h

/-- A left fold of `min` is the initial accumulator or one of the elements. -/
lemma foldl_min_eq_init_or_mem (xs : List ℝ) (a : ℝ) :
    xs.foldl min a = a ∨ xs.foldl min a ∈ xs := by
  induction xs generalizing a with
  | nil => exact Or.inl rfl
  | cons y ys ih =>
    rcases ih (min a y) with h | h
    · rcases le_total a y with hay | hya
      · exact Or.inl (by rw [List.foldl_cons, h, min_eq_left hay])
      · refine Or.inr (List.mem_cons.mpr (Or.inl ?_))
        rw [List.foldl_cons, h, min_eq_right hya]
    · exact Or.inr (List.mem_cons.mpr (Or.inr h))

/-- A left fold of `max` is at least its initial accumulator. -/
lemma foldl_max_ge_init (xs : List ℝ) (a : ℝ) : a ≤ xs.foldl max a := by
  induction xs generalizing a with
  | nil => simp
  | cons y ys ih => exact le_trans (le_max_left a y) (ih (max a y))

/-- A left fold of `max` is an upper bound of the list elements. -/
lemma foldl_max_ge_mem (xs : List ℝ) (a x : ℝ) (hx : x ∈ xs) :
    x ≤ xs.foldl max a := by
  induction xs generalizing a with
  | nil => cases hx
  | cons y ys ih =>
    rcases List.mem_cons.mp hx with rfl | h
    · exact le_trans (le_max_right a x) (foldl_max_ge_init ys (max a x))
    · exact ih (max a y) h

/-- A left fold of `max` is the initial accumulator or one of the elements. -/
lemma foldl_max_eq_init_or_mem (xs : List ℝ) (a : ℝ) :
    xs.foldl max a = a ∨ xs.foldl max a ∈ xs := by
  induction xs generalizing a with
  | nil => exact Or.inl rfl
  | cons y ys ih =>
    rcases ih (max a y) with h | h
    · rcases le_total a y with hay | hya
      · refine Or.inr (List.mem_cons.mpr (Or.inl ?_))
        rw [List.foldl_cons, h, max_eq_right hay]
      · exact Or.inl (by rw [List.foldl_cons, h, max_eq_left hya])
    · exact Or.inr (List.mem_cons.mpr (Or.inr h))

/-- On a non-empty list, `listMin` is the least element. -/
lemma listMin_isLeast (l : List ℝ) (h : l ≠ []) :
    IsLeast {x | x ∈ l} (listMin l) := by
  cases l with
  | nil => exact absurd rfl h
  | cons x xs =>
    constructor
    · show listMin (x :: xs) ∈ x :: xs
      rcases foldl_min_eq_init_or_mem xs x with h1 | h1
      · rw [listMin, h1]; exact List.mem_cons_self x xs
      · exact List.mem_cons.mpr (Or.inr (by rw [listMin]; exact h1))
    · intro y hy
      rcases List.mem_cons.mp hy with rfl | hy
      · exact foldl_min_le_init xs y
      · exact foldl_min_le_mem xs x y hy

/-- On a non-empty list, `listMax` is the greatest element. -/
lemma listMax_isGreatest (l : List ℝ) (h : l ≠ []) :
    IsGreatest {x | x ∈ l} (listMax l) := by
  cases l with
  | nil => exact absurd rfl h
  | cons x xs =>
    constructor
    · show listMax (x :: xs) ∈ x :: xs
      rcases foldl_max_eq_init_or_mem xs x with h1 | h1
      · rw [listMax, h1]; exact List.mem_cons_self x xs
      · exact List.mem_cons.mpr (Or.inr (by rw [listMax]; exact h1))
    · intro y hy
      rcases List.mem_cons.mp hy with rfl | hy
      · exact foldl_max_ge_init xs y
      · exact foldl_max_ge_mem xs x y hy

/-- The set of values taken by one coordinate over all wall vertices. -/
def coordSet (f : Vec3 → ℝ) (walls : List Wall) : Set ℝ :=
  {x | ∃ v ∈ all_wall_vertices walls, f v = x}

/-- Membership in a mapped coordinate list coincides with the coordinate
set. -/
lemma mem_map_iff_coordSet (f : Vec3 → ℝ) (walls : List Wall) (x : ℝ) :
    x ∈ (all_wall_vertices walls).map f ↔ x ∈ coordSet f walls := by
  simp [coordSet, List.mem_map]

/-- The raw-extent description of the bounds the code actually computes:
width, height and depth are exact max-minus-min extents of the wall vertices
(no floor at 1.0 is applied), with `area = width * depth` and
`volume = width * height * depth`. -/
def C3Spec (walls : List Wall) : Prop :=
  (∃ hi lo, IsGreatest (coordSet (fun v => v.1) walls) hi ∧
    IsLeast (coordSet (fun v => v.1) walls) lo ∧
    (calculate_room_bounds walls).width = hi - lo) ∧
  (∃ hi lo, IsGreatest (coordSet (fun v => v.2.1) walls) hi ∧
    IsLeast (coordSet (fun v => v.2.1) walls) lo ∧
    (calculate_room_bounds walls).height = hi - lo) ∧
  (∃ hi lo, IsGreatest (coordSet (fun v => v.2.2) walls) hi ∧
    IsLeast (coordSet (fun v => v.2.2) walls) lo ∧
    (calculate_room_bounds walls).depth = hi - lo) ∧
  (calculate_room_bounds walls).area =
    (calculate_room_bounds walls).width * (calculate_room_bounds walls).depth ∧
  (calculate_room_bounds walls).volume =
    (calculate_room_bounds walls).width * (calculate_room_bounds walls).height *
      (calculate_room_bounds walls).depth

/-- One coordinate extent of the computed bounds is an exact max-minus-min
extent of the vertex coordinates. -/
lemma extent_exists (f : Vec3 → ℝ) (walls : List Wall)
    (h2 : (all_wall_vertices walls).isEmpty = false) :
    ∃ hi lo, IsGreatest (coordSet f walls) hi ∧ IsLeast (coordSet f walls) lo ∧
      listMax ((all_wall_vertices walls).map f) -
        listMin ((all_wall_vertices walls).map f) = hi - lo := by
  have hne : (all_wall_vertices walls).map f ≠ [] := by
    intro hc
    rw [List.map_eq_nil_iff] at hc
    rw [hc] at h2
    simp at h2
  have hset : {x | x ∈ (all_wall_vertices walls).map f} = coordSet f walls := by
    ext x
    exact mem_map_iff_coordSet f walls x
  refine ⟨listMax ((all_wall_vertices walls).map f),
          listMin ((all_wall_vertices walls).map f), ?_, ?_, rfl⟩
  · rw [← hset]; exact listMax_isGreatest _ hne
  · rw [← hset]; exact listMin_isLeast _ hne

/-- C3 amended: for every non-empty wall list with at least one vertex, the
computed room bounds are the raw axis-aligned extents of all wall vertices —
greatest minus least coordinate per axis, with no 1.0 floor — and
`area = width * depth`, `volume = width * height * depth`. -/
theorem c3_bounds_raw_extents (walls : List Wall) (h1 : walls.isEmpty = false)
    (h2 : (all_wall_vertices walls).isEmpty = false) : C3Spec walls := by
  have hb : calculate_room_bounds walls =
      { width := listMax ((all_wall_vertices walls).map (fun v => v.1)) -
          listMin ((all_wall_vertices walls).map (fun v => v.1)),
        height := listMax ((all_wall_vertices walls).map (fun v => v.2.1)) -
          listMin ((all_wall_vertices walls).map (fun v => v.2.1)),
        depth := listMax ((all_wall_vertices walls).map (fun v => v.2.2)) -
          listMin ((all_wall_vertices walls).map (fun v => v.2.2)),
        area := (listMax ((all_wall_vertices walls).map (fun v => v.1)) -
          listMin ((all_wall_vertices walls).map (fun v => v.1))) *
          (listMax ((all_wall_vertices walls).map (fun v => v.2.2)) -
          listMin ((all_wall_vertices walls).map (fun v => v.2.2))),
        volume := (listMax ((all_wall_vertices walls).map (fun v => v.1)) -
          listMin ((all_wall_vertices walls).map (fun v => v.1))) *
          (listMax ((all_wall_vertices walls).map (fun v => v.2.1)) -
          listMin ((all_wall_vertices walls).map (fun v => v.2.1))) *
          (listMax ((all_wall_vertices walls).map (fun v => v.2.2)) -
          listMin ((all_wall_vertices walls).map (fun v => v.2.2))) } := by
    simp [calculate_room_bounds, h1, h2]
  refine ⟨?_, ?_, ?_, ?_, ?_⟩
  · rw [hb]; exact extent_exists _ walls h2
  · rw [hb]; exact extent_exists _ walls h2
  · rw [hb]; exact extent_exists _ walls h2
  · rw [hb]
  · rw [hb]

/-- A degenerate wall whose four vertices coincide at the origin. -/
def degenerate_wall : Wall :=
  { id := "w0",
    vertices := [zero3, zero3, zero3, zero3],
    normal := (0, 0, 1),
    bounds := { x_min := 0, y_min := 0, x_max := 0, y_max := 0 },
    elements := [],
    confidence := 0.9 }

/-- C3 witness: the raw-extent bounds description evaluated at a concrete
one-wall list. -/
theorem c3_witness : C3Spec [degenerate_wall] :=
  c3_bounds_raw_extents [degenerate_wall] rfl rfl

/-- C3 counterexample: for a non-empty wall list whose vertices coincide, the
computed width is 0, not the claimed floor of at least 1.0 — no dimension is
floored at 1.0. -/
theorem c3_counterexample :
    (calculate_room_bounds [degenerate_wall]).width = 0 ∧
    ¬ (1 ≤ (calculate_room_bounds [degenerate_wall]).width) := by
  have hw : (calculate_room_bounds [degenerate_wall]).width = 0 := by
    simp [calculate_room_bounds, all_wall_vertices, degenerate_wall, zero3,
      listMax, listMin]
  exact ⟨hw, by rw [hw]; norm_num⟩

/-- A wall whose normal is the unit x-axis vector. -/
def wall_px : Wall :=
  { id := "px",
    vertices := [(-1, 1, -2), (1, 1, -2), (1, -1, -2), (-1, -1, -2)],
    normal := (1, 0, 0),
    bounds := { x_min := 0, y_min := 0, x_max := 100, y_max := 100 },
    elements := [],
    confidence := 0.8 }

/-- A wall whose normal is the unit z-axis vector. -/
def wall_pz : Wall :=
  { id := "pz",
    vertices := [(-1, 1, -2), (1, 1, -2), (1, -1, -2), (-1, -1, -2)],
    normal := (0, 0, 1),
    bounds := { x_min := 0, y_min := 0, x_max := 100, y_max := 100 },
    elements := [],
    confidence := 0.8 }

/-- The connection angle between the x-axis and z-axis unit normals is
90 degrees. -/
lemma angleDeg_px_pz : angleDeg (1, 0, 0) (0, 0, 1) = 90 := by
  have hdot : dot3 (1, 0, 0) (0, 0, 1) = 0 := by norm_num [dot3]
  have hclip : max (-1 : ℝ) (min (dot3 (1, 0, 0) (0, 0, 1)) 1) = 0 := by
    rw [hdot]; norm_num
  unfold angleDeg
  rw [hclip, Real.arccos_zero]
  have hpi := Real.pi_ne_zero
  field_simp
  ring

/-- The connection angle between two identical unit z-axis normals is
0 degrees. -/
lemma angleDeg_pz_pz : angleDeg (0, 0, 1) (0, 0, 1) = 0 := by
  have hdot : dot3 (0, 0, 1) (0, 0, 1) = 1 := by norm_num [dot3]
  have hclip : max (-1 : ℝ) (min (dot3 (0, 0, 1) (0, 0, 1)) 1) = 1 := by
    rw [hdot]; norm_num
  unfold angleDeg
  rw [hclip, Real.arccos_one]
  ring

/-- C5: the classifier records
`angle = degrees(arccos(clip(dot(n1, n2), -1, 1)))` and returns corner
exactly for angles in [80, 100], parallel exactly for angles below 10 or
above 170, and no connection otherwise; the normals (1,0,0) and (0,0,1)
classify as a corner and two identical (0,0,1) normals as parallel. -/
theorem c5_classifier_thresholds (a b : Wall) :
    ((check_wall_connection a b).angle = angleDeg a.normal b.normal) ∧
    ((check_wall_connection a b).ctype = "corner" ↔
      80 ≤ angleDeg a.normal b.normal ∧ angleDeg a.normal b.normal ≤ 100) ∧
    ((check_wall_connection a b).ctype = "parallel" ↔
      (angleDeg a.normal b.normal < 10 ∨ 170 < angleDeg a.normal b.normal)) ∧
    ((check_wall_connection a b).ctype = "none" ↔
      ¬ (80 ≤ angleDeg a.normal b.normal ∧ angleDeg a.normal b.normal ≤ 100) ∧
      ¬ (angleDeg a.normal b.normal < 10 ∨ 170 < angleDeg a.normal b.normal)) ∧
    (check_wall_connection wall_px wall_pz).ctype = "corner" ∧
    (check_wall_connection wall_pz wall_pz).ctype = "parallel" := by
  refine ⟨?_, ?_, ?_, ?_, ?_, ?_⟩
  · unfold check_wall_connection
    dsimp only
    split_ifs <;> rfl
  · unfold check_wall_connection
    dsimp only
    split_ifs with h1 h2 <;> dsimp only
    · exact iff_of_true rfl h1
    · exact iff_of_false (by decide) h1
    · exact iff_of_false (by decide) h1
  · unfold check_wall_connection
    dsimp only
    split_ifs with h1 h2 <;> dsimp only
    · refine iff_of_false (by decide) ?_
      rintro (h | h) <;> [linarith [h1.1]; linarith [h1.2]]
    · exact iff_of_true rfl h2
    · exact iff_of_false (by decide) h2
  · unfold check_wall_connection
    dsimp only
    split_ifs with h1 h2 <;> dsimp only
    · exact iff_of_false (by decide) (fun hc => hc.1 h1)
    · exact iff_of_false (by decide) (fun hc => hc.2 h2)
    · exact iff_of_true rfl ⟨h1, h2⟩
  · have h90 : angleDeg wall_px.normal wall_pz.normal = 90 := angleDeg_px_pz
    simp only [check_wall_connection, h90]
    norm_num
  · have h0 : angleDeg wall_pz.normal wall_pz.normal = 0 := angleDeg_pz_pz
    simp only [check_wall_connection, h0]
    norm_num

/-- Index-pair membership in the row-major nested loop range. -/
lemma mem_pairIndices (n m : ℕ) (ij : ℕ × ℕ) :
    ij ∈ pairIndices n m ↔ ij.1 < n ∧ ij.2 < m := by
  cases ij with
  | mk i j => simp [pairIndices, List.mem_flatMap, List.mem_map, List.mem_range]

/-- One minimum-tracking step always yields a result that is at most the
current pair distance, at most any previous minimum, and is either the pair
just examined or the previous state. -/
lemma closerStep_spec (vs1 vs2 : List Vec3) (acc : Option (ℝ × ℕ × ℕ))
    (ij : ℕ × ℕ) :
    ∃ s, closerStep vs1 vs2 acc ij = some s ∧
      s.1 ≤ dist3 (vs1.getD ij.1 zero3) (vs2.getD ij.2 zero3) ∧
      (∀ r, acc = some r → s.1 ≤ r.1) ∧
      (s = (dist3 (vs1.getD ij.1 zero3) (vs2.getD ij.2 zero3), ij.1, ij.2) ∨
        acc = some s) := by
  cases acc with
  | none =>
      refine ⟨(dist3 (vs1.getD ij.1 zero3) (vs2.getD ij.2 zero3), ij.1, ij.2),
        rfl, le_refl _, ?_, Or.inl rfl⟩
      intro r hr
      exact Option.noConfusion hr
  | some r =>
      have heq : closerStep vs1 vs2 (some r) ij =
          if dist3 (vs1.getD ij.1 zero3) (vs2.getD ij.2 zero3) < r.1 then
            some (dist3 (vs1.getD ij.1 zero3) (vs2.getD ij.2 zero3), ij.1, ij.2)
          else some r := rfl
      by_cases h : dist3 (vs1.getD ij.1 zero3) (vs2.getD ij.2 zero3) < r.1
      · refine ⟨(dist3 (vs1.getD ij.1 zero3) (vs2.getD ij.2 zero3), ij.1, ij.2),
          by rw [heq, if_pos h], le_refl _, ?_, Or.inl rfl⟩
        intro r' hr'
        injection hr' with hr''
        rw [← hr'']
        exact le_of_lt h
      · refine ⟨r, by rw [heq, if_neg h], not_lt.mp h, ?_, Or.inr rfl⟩
        intro r' hr'
        injection hr' with hr''
        rw [← hr'']

/-- Folding the minimum-tracking step from a `some` state stays `some`. -/
lemma foldl_closerStep_some (vs1 vs2 : List Vec3) (L : List (ℕ × ℕ))
    (r : ℝ × ℕ × ℕ) :
    ∃ r', L.foldl (closerStep vs1 vs2) (some r) = some r' := by
  induction L generalizing r with
  | nil => exact ⟨r, rfl⟩
  | cons ij L ih =>
      obtain ⟨s, hs, _, _, _⟩ := closerStep_spec vs1 vs2 (some r) ij
      rw [List.foldl_cons, hs]
      exact ih s

/-- On non-empty vertex lists the closest-vertex search returns a result. -/
lemma closest_vertices_isSome (vs1 vs2 : List Vec3) (h1 : vs1 ≠ [])
    (h2 : vs2 ≠ []) : ∃ r, closest_vertices vs1 vs2 = some r := by
  unfold closest_vertices
  have hmem : ((0, 0) : ℕ × ℕ) ∈ pairIndices vs1.length vs2.length := by
    rw [mem_pairIndices]
    exact ⟨List.length_pos.mpr h1, List.length_pos.mpr h2⟩
  obtain ⟨ij, L', hL⟩ : ∃ ij L', pairIndices vs1.length vs2.length = ij :: L' := by
    cases hP : pairIndices vs1.length vs2.length with
    | nil => rw [hP] at hmem; cases hmem
    | cons a l => exact ⟨a, l, rfl⟩
  rw [hL, List.foldl_cons]
  have hstep : closerStep vs1 vs2 none ij =
      some (dist3 (vs1.getD ij.1 zero3) (vs2.getD ij.2 zero3), ij.1, ij.2) := rfl
  rw [hstep]
  exact foldl_closerStep_some vs1 vs2 L' _

/-- The result of the minimum-tracking fold is a lower bound of all examined
pair distances and of any initial state. -/
lemma foldl_closerStep_min (vs1 vs2 : List Vec3) (L : List (ℕ × ℕ))
    (acc : Option (ℝ × ℕ × ℕ)) (r' : ℝ × ℕ × ℕ)
    (h : L.foldl (closerStep vs1 vs2) acc = some r') :
    (∀ ij ∈ L, r'.1 ≤ dist3 (vs1.getD ij.1 zero3) (vs2.getD ij.2 zero3)) ∧
    (∀ r, acc = some r → r'.1 ≤ r.1) := by
  induction L generalizing acc with
  | nil =>
      refine ⟨?_, ?_⟩
      · intro ij hij
        cases hij
      · intro r hr
        rw [List.foldl_nil] at h
        rw [hr] at h
        injection h with h'
        rw [h']
  | cons ij L ih =>
      rw [List.foldl_cons] at h
      obtain ⟨s, hs, hs_le, hs_mono, _⟩ := closerStep_spec vs1 vs2 acc ij
      rw [hs] at h
      obtain ⟨hmem, hinit⟩ := ih (some s) h
      have hr's : r'.1 ≤ s.1 := hinit s rfl
      refine ⟨?_, ?_⟩
      · intro ij' hij'
        rcases List.mem_cons.mp hij' with rfl | hmem'
        · exact le_trans hr's hs_le
        · exact hmem ij' hmem'
      · intro r hr
        exact le_trans hr's (hs_mono r hr)

/-- The result of the minimum-tracking fold is the initial state or the
distance-indexed record of one of the examined pairs. -/
lemma foldl_closerStep_origin (vs1 vs2 : List Vec3) (L : List (ℕ × ℕ))
    (acc : Option (ℝ × ℕ × ℕ)) (r' : ℝ × ℕ × ℕ)
    (h : L.foldl (closerStep vs1 vs2) acc = some r') :
    acc = some r' ∨ ∃ ij ∈ L,
      r' = (dist3 (vs1.getD ij.1 zero3) (vs2.getD ij.2 zero3), ij.1, ij.2) := by
  induction L generalizing acc with
  | nil => exact Or.inl h
  | cons ij L ih =>
      rw [List.foldl_cons] at h
      obtain ⟨s, hs, _, _, horig⟩ := closerStep_spec vs1 vs2 acc ij
      rw [hs] at h
      rcases ih (some s) h with h1 | ⟨ij', hij', h2⟩
      · injection h1 with h1'
        rcases horig with h3 | h3
        · exact Or.inr ⟨ij, List.mem_cons_self ij L, by rw [← h1']; exact h3⟩
        · left
          rw [h3, h1']
      · exact Or.inr ⟨ij', List.mem_cons.mpr (Or.inr hij'), h2⟩

/-- The closest-vertex search on non-empty lists returns an in-range index
pair realizing the minimum distance over all index combinations. -/
lemma closest_vertices_spec (vs1 vs2 : List Vec3) (h1 : vs1 ≠ [])
    (h2 : vs2 ≠ []) :
    ∃ m i j, closest_vertices vs1 vs2 = some (m, i, j) ∧ i < vs1.length ∧
      j < vs2.length ∧ m = dist3 (vs1.getD i zero3) (vs2.getD j zero3) ∧
      ∀ i' j', i' < vs1.length → j' < vs2.length →
        m ≤ dist3 (vs1.getD i' zero3) (vs2.getD j' zero3) := by
  obtain ⟨r, hr⟩ := closest_vertices_isSome vs1 vs2 h1 h2
  have hmin := foldl_closerStep_min vs1 vs2
    (pairIndices vs1.length vs2.length) none r hr
  have horig := foldl_closerStep_origin vs1 vs2
    (pairIndices vs1.length vs2.length) none r hr
  rcases horig with hcontra | ⟨ij, hijmem, hij⟩
  · exact absurd hcontra (by simp)
  · obtain ⟨hi, hj⟩ := (mem_pairIndices _ _ ij).mp hijmem
    refine ⟨r.1, ij.1, ij.2, ?_, hi, hj, ?_, ?_⟩
    · rw [hr, hij]
    · rw [hij]
    · intro i' j' hi' hj'
      exact hmin.1 (i', j') ((mem_pairIndices _ _ (i', j')).mpr ⟨hi', hj'⟩)

/-- The behaviour the spec claims for corner alignment of one wall pair:
some index pair (i, j) realizing the minimum vertex distance over all 4×4
combinations is found; when that distance is below 0.1 both chosen vertices
are replaced by their midpoint (all other vertices and walls untouched),
and when it is 0.1 or more the wall list is returned unmodified. -/
def CornerAlignSpec (walls : List Wall) (c : Conn) : Prop :=
  let w1 := walls.getD c.wall1_idx default_wall
  let w2 := walls.getD c.wall2_idx default_wall
  ∃ i j, i < 4 ∧ j < 4 ∧
    (∀ i' j', i' < 4 → j' < 4 →
      dist3 (w1.vertices.getD i zero3) (w2.vertices.getD j zero3) ≤
      dist3 (w1.vertices.getD i' zero3) (w2.vertices.getD j' zero3)) ∧
    (dist3 (w1.vertices.getD i zero3) (w2.vertices.getD j zero3) < 0.1 →
      align_connection walls c =
        (walls.set c.wall1_idx
          { w1 with
            vertices :=
              w1.vertices.set i
                (vdiv (vadd (w1.vertices.getD i zero3) (w2.vertices.getD j zero3)) 2) }).set
          c.wall2_idx
          { w2 with
            vertices :=
              w2.vertices.set j
                (vdiv (vadd (w1.vertices.getD i zero3) (w2.vertices.getD j zero3)) 2) }) ∧
    (0.1 ≤ dist3 (w1.vertices.getD i zero3) (w2.vertices.getD j zero3) →
      align_connection walls c = walls)

/-- C6: for a connection classified corner between two 4-vertex walls, the
alignment step finds a vertex pair of minimum distance over all 4×4
combinations; below the 0.1 threshold it replaces both vertices by their
midpoint, and at 0.1 or more it leaves every wall unmodified. -/
theorem c6_corner_alignment (walls : List Wall) (c : Conn)
    (hc : c.connection_type = "corner")
    (h4a : (walls.getD c.wall1_idx default_wall).vertices.length = 4)
    (h4b : (walls.getD c.wall2_idx default_wall).vertices.length = 4) :
    CornerAlignSpec walls c := by
  unfold CornerAlignSpec
  dsimp only
  have hne1 : (walls.getD c.wall1_idx default_wall).vertices ≠ [] := by
    intro hnil
    rw [hnil] at h4a
    simp at h4a
  have hne2 : (walls.getD c.wall2_idx default_wall).vertices ≠ [] := by
    intro hnil
    rw [hnil] at h4b
    simp at h4b
  obtain ⟨m, i, j, heq, hi, hj, hm, hminim⟩ :=
    closest_vertices_spec (walls.getD c.wall1_idx default_wall).vertices
      (walls.getD c.wall2_idx default_wall).vertices hne1 hne2
  rw [h4a] at hi
  rw [h4b] at hj
  refine ⟨i, j, hi, hj, ?_, ?_, ?_⟩
  · intro i' j' hi' hj'
    rw [← hm]
    exact hminim i' j' (by rw [h4a]; exact hi') (by rw [h4b]; exact hj')
  · intro hlt
    have hmlt : m < corner_threshold := by
      rw [hm]
      exact hlt
    unfold align_connection
    rw [if_pos hc]
    dsimp only
    rw [heq]
    dsimp only
    rw [if_pos hmlt]
  · intro hge
    have hmge : ¬ (m < corner_threshold) := by
      rw [not_lt, hm]
      exact hge
    unfold align_connection
    rw [if_pos hc]
    dsimp only
    rw [heq]
    dsimp only
    rw [if_neg hmge]

/-- A corner connection record between the first two walls of a list. -/
def c6_conn : Conn :=
  { wall1_idx := 0, wall2_idx := 1, connection_type := "corner", angle := 90 }

/-- C6 witness: the corner-alignment description evaluated at a concrete
two-wall list with a concrete corner connection. -/
theorem c6_witness : CornerAlignSpec [wall_px, wall_pz] c6_conn :=
  c6_corner_alignment [wall_px, wall_pz] c6_conn rfl rfl rfl

end Arc
